import Mathlib

/-!
Verification of the sales-manager-system repository's analytical layer.

This file gives a shallow embedding, in Lean 4, of the parts of the repository
that the verified properties concern:

* `src/utils/query_builder.py` — the fluent SQL query builder (`SQLQueryBuilder`);
* `src/utils/analysis_strategies.py` — the revenue and customer-behavior
  analysis strategies;
* `src/utils/decorators.py` — the LRU query cache, the caching wrapper and the
  retry wrapper;
* `src/utils/model_factory.py` — the model-factory registry;
* `src/models/category.py` — the `Category` entity's row-based constructor.

Python conventions are modelled explicitly: machine-level `None` is an
`Option`, Python exceptions are an `Except` with a `PyError` tag naming the
exception class, Python dicts (which preserve insertion order) are association
lists, and numeric cell values are rationals.  Each definition is annotated
with the source location it embeds.
-/

/-- Python exception classes that the embedded code can raise. -/
inductive PyError where
  | valueError (msg : String)
  | keyError (msg : String)
  | typeError (msg : String)
deriving DecidableEq

deriving instance DecidableEq for Except

/-- Python's `str.upper`, as applied to sort directions in
`query_builder.py`.  Same behavior as `String.toUpper` on the ASCII inputs
used there, but defined over the underlying character list so that the
kernel can evaluate it. -/
def pyUpper (s : String) : String := ⟨s.data.map Char.toUpper⟩

/-- Python's `sep.join(parts)`, used by `"\n".join(query_parts)` and
`", ".join(...)` in `query_builder.py`. -/
def joinWith (sep : String) : List String → String
  | [] => ""
  | [x] => x
  | x :: y :: xs => x ++ sep ++ joinWith sep (y :: xs)

/-- The accumulated state of `SQLQueryBuilder`
(`src/utils/query_builder.py`, fields set in `reset`, lines 20-34).
`limit_value : Option Int` models the Python `Optional[int]`. -/
structure SQLQueryBuilder where
  select_fields : List String
  from_table : String
  joins : List String
  where_conditions : List String
  group_by_fields : List String
  having_conditions : List String
  order_by_fields : List String
  limit_value : Option Int
deriving DecidableEq

namespace SQLQueryBuilder

/-- The construction-time state: `__init__` calls `reset`, which clears every
field to empty/absent. -/
def empty : SQLQueryBuilder :=
  { select_fields := []
    from_table := ""
    joins := []
    where_conditions := []
    group_by_fields := []
    having_conditions := []
    order_by_fields := []
    limit_value := none }

/-- `reset` (lines 20-34): returns the builder to the empty state. -/
def reset (_b : SQLQueryBuilder) : SQLQueryBuilder := empty

/-- `select` (lines 36-45): extends the select list. -/
def select (b : SQLQueryBuilder) (fields : List String) : SQLQueryBuilder :=
  { b with select_fields := b.select_fields ++ fields }

/-- `select_field` (lines 47-56): appends one select field. -/
def select_field (b : SQLQueryBuilder) (field : String) : SQLQueryBuilder :=
  { b with select_fields := b.select_fields ++ [field] }

/-- `from_table` (lines 58-67): sets the FROM table.  Named `fromTable`
because the structure field already carries the source name. -/
def fromTable (b : SQLQueryBuilder) (table : String) : SQLQueryBuilder :=
  { b with from_table := table }

/-- `inner_join` (lines 69-79). -/
def inner_join (b : SQLQueryBuilder) (table on_condition : String) : SQLQueryBuilder :=
  { b with joins := b.joins ++ ["INNER JOIN " ++ table ++ " ON " ++ on_condition] }

/-- `left_join` (lines 81-91). -/
def left_join (b : SQLQueryBuilder) (table on_condition : String) : SQLQueryBuilder :=
  { b with joins := b.joins ++ ["LEFT JOIN " ++ table ++ " ON " ++ on_condition] }

/-- `right_join` (lines 93-103). -/
def right_join (b : SQLQueryBuilder) (table on_condition : String) : SQLQueryBuilder :=
  { b with joins := b.joins ++ ["RIGHT JOIN " ++ table ++ " ON " ++ on_condition] }

/-- `where` (lines 105-114); named `whereCond` because `where` is a Lean
keyword. -/
def whereCond (b : SQLQueryBuilder) (condition : String) : SQLQueryBuilder :=
  { b with where_conditions := b.where_conditions ++ [condition] }

/-- `group_by` (lines 163-172). -/
def group_by (b : SQLQueryBuilder) (fields : List String) : SQLQueryBuilder :=
  { b with group_by_fields := b.group_by_fields ++ fields }

/-- `having` (lines 174-183). -/
def having (b : SQLQueryBuilder) (condition : String) : SQLQueryBuilder :=
  { b with having_conditions := b.having_conditions ++ [condition] }

/-- `order_by` (lines 185-195): appends `f"{field} {direction.upper()}"`.
The Python default argument for `direction` is `"ASC"`; callers of the
embedding pass the direction explicitly. -/
def order_by (b : SQLQueryBuilder) (field direction : String) : SQLQueryBuilder :=
  { b with order_by_fields := b.order_by_fields ++ [field ++ " " ++ pyUpper direction] }

/-- `limit` (lines 197-206): stores the count. -/
def limit (b : SQLQueryBuilder) (count : Int) : SQLQueryBuilder :=
  { b with limit_value := some count }

/-- `build` (lines 208-259).  Each Python truthiness test `if not xs:` /
`if xs:` on a list is modelled as (in)equality with `[]`; the test
`if self._limit_value:` is falsy exactly when the value is `None` or `0`.
The sequential `query_parts` appends mirror the Python statement order. -/
def build (b : SQLQueryBuilder) : Except String String :=
  if b.select_fields = [] then .error "SELECT fields are required"
  else if b.from_table = "" then .error "FROM table is required"
  else
    let select_clause := "SELECT " ++ joinWith ", " b.select_fields
    let from_clause := "FROM " ++ b.from_table
    let query_parts := [select_clause, from_clause]
    let query_parts := if b.joins = [] then query_parts else query_parts ++ b.joins
    let query_parts :=
      if b.where_conditions = [] then query_parts
      else query_parts ++ ["WHERE " ++ joinWith " AND " b.where_conditions]
    let query_parts :=
      if b.group_by_fields = [] then query_parts
      else query_parts ++ ["GROUP BY " ++ joinWith ", " b.group_by_fields]
    let query_parts :=
      if b.having_conditions = [] then query_parts
      else query_parts ++ ["HAVING " ++ joinWith " AND " b.having_conditions]
    let query_parts :=
      if b.order_by_fields = [] then query_parts
      else query_parts ++ ["ORDER BY " ++ joinWith ", " b.order_by_fields]
    let query_parts :=
      match b.limit_value with
      | none => query_parts
      | some n => if n = 0 then query_parts else query_parts ++ ["LIMIT " ++ toString n]
    .ok (joinWith "\n" query_parts)

end SQLQueryBuilder

/-- The clauses before LIMIT, as the specification describes them: SELECT,
FROM, then JOINs in insertion order, WHERE as the AND-conjunction of all
predicates, GROUP BY, HAVING, ORDER BY, each omitted when its underlying
list is empty. -/
def specParts (b : SQLQueryBuilder) : List String :=
  ["SELECT " ++ joinWith ", " b.select_fields, "FROM " ++ b.from_table]
    ++ b.joins
    ++ (if b.where_conditions = [] then []
        else ["WHERE " ++ joinWith " AND " b.where_conditions])
    ++ (if b.group_by_fields = [] then []
        else ["GROUP BY " ++ joinWith ", " b.group_by_fields])
    ++ (if b.having_conditions = [] then []
        else ["HAVING " ++ joinWith " AND " b.having_conditions])
    ++ (if b.order_by_fields = [] then []
        else ["ORDER BY " ++ joinWith ", " b.order_by_fields])

/-- The LIMIT clause, omitted when the underlying value is empty/absent —
under the builder's own emptiness test (Python truthiness) a stored limit of
`0` counts as empty/absent, which claim C8 examines. -/
def specLimitClause (b : SQLQueryBuilder) : List String :=
  match b.limit_value with
  | none => []
  | some n => if n = 0 then [] else ["LIMIT " ++ toString n]

/-- Declarative renderer written from the specification text: emit the
present clauses in the fixed order SELECT, FROM, JOINs, WHERE, GROUP BY,
HAVING, ORDER BY, LIMIT, joined by newlines. -/
def specRender (b : SQLQueryBuilder) : String :=
  joinWith "\n" (specParts b ++ specLimitClause b)

/-- The builder state produced by
`select(['a','b']).from_table('t').where('x>1').order_by('a')`. -/
def chainExample : SQLQueryBuilder :=
  (((SQLQueryBuilder.empty.select ["a", "b"]).fromTable "t").whereCond
      "x>1").order_by "a" "ASC"

/-- The in-memory LRU cache `QueryCache` of `src/utils/decorators.py`
(lines 16-67).  The Python dict `_cache` (insertion-ordered) is an
association list; a stored Python value is an `Option α`, with `none`
standing for a stored `None`.  `_access_order` lists keys from least to most
recently used. -/
structure QueryCache (α : Type) where
  cache : List (String × Option α)
  max_size : Nat
  access_order : List String

/-- `QueryCache.__init__` with the default `max_size=100` made explicit. -/
def QueryCache.init (α : Type) (max_size : Nat) : QueryCache α :=
  { cache := [], max_size := max_size, access_order := [] }

/-- The keys currently stored in the cache dict. -/
def QueryCache.keys (c : QueryCache α) : List String := c.cache.map Prod.fst

/-- `QueryCache.get` (lines 25-38): on a present key, move it to the
most-recently-used end and return the stored value; otherwise return `None`.
Both a missing key and a stored `None` yield `none`, exactly as in Python.
Returns the possibly-touched cache alongside the result. -/
def QueryCache.get (c : QueryCache α) (key : String) : Option α × QueryCache α :=
  match c.cache.lookup key with
  | some v => (v, { c with access_order := c.access_order.erase key ++ [key] })
  | none => (none, c)

/-- `QueryCache.set` (lines 40-60): update an existing key in place (touching
recency); otherwise, when the dict has reached `max_size`, pop the least
recently used key from the front of `_access_order` and delete its entry
before inserting the new key at the most-recently-used end.  Python raises
`IndexError` on `pop(0)` from an empty `_access_order`; that branch is
unreachable for a well-formed cache of positive capacity and is modelled as
the identity. -/
def QueryCache.set (c : QueryCache α) (key : String) (value : Option α) : QueryCache α :=
  if (c.cache.lookup key).isSome then
    { c with
      cache := c.cache.map fun p => if p.1 == key then (key, value) else p
      access_order := c.access_order.erase key ++ [key] }
  else if c.max_size ≤ c.cache.length then
    match c.access_order with
    | [] => c
    | oldest_key :: rest =>
      { c with
        cache := (c.cache.filter fun p => p.1 != oldest_key) ++ [(key, value)]
        access_order := rest ++ [key] }
  else
    { c with
      cache := c.cache ++ [(key, value)]
      access_order := c.access_order ++ [key] }

/-- One call through the wrapper produced by `caching_decorator`
(`src/utils/decorators.py`, lines 160-182): result returned to the caller,
cache state afterwards, and whether the wrapped operation was invoked. -/
structure CallResult (α : Type) where
  result : Option α
  cache : QueryCache α
  invoked : Bool

/-- The body of the `caching_decorator` wrapper (lines 162-180).  The wrapped
operation `f` is pure; its argument is identified with the cache-key string
`f"{func.__name__}:{str(args)}:{str(sorted(kwargs.items()))}"`, which is a
deterministic function of the operation name and arguments (identical
arguments give the identical key, distinct arguments give distinct keys).
A `None` result of `f` is `none`.  The wrapper serves a cache hit only when
`get` returns a non-`None` value; otherwise it invokes `f` and stores the
result. -/
def cachingCall (f : String → Option α) (c : QueryCache α) (key : String) : CallResult α :=
  let looked := c.get key
  match looked.1 with
  | some v => { result := some v, cache := looked.2, invoked := false }
  | none =>
    let result := f key
    { result := result, cache := looked.2.set key result, invoked := true }

/-- Python exception-or-value outcome of one invocation of an operation. -/
abbrev PyOutcome (α : Type) := Except PyError α

/-- Helper for `retry_decorator` (`src/utils/decorators.py`, lines 212-244):
run the `for attempt in range(max_retries + 1)` loop from attempt number
`attempt` with `remaining` further attempts allowed after the current one.
`f i` is the outcome of the `i`-th invocation of the wrapped operation.
Returns the final outcome together with the number of invocations made. -/
def retryFrom (f : Nat → PyOutcome α) (attempt : Nat) : Nat → PyOutcome α × Nat
  | 0 => (f attempt, 1)
  | remaining + 1 =>
    match f attempt with
    | .ok a => (.ok a, 1)
    | .error _ =>
      let next := retryFrom f (attempt + 1) remaining
      (next.1, next.2 + 1)

/-- `retry_decorator(max_retries)` applied to an operation `f`: the loop
runs attempts `0 .. max_retries`, returning the first success; every
exception (Python catches the broad `Exception` class) is caught and, while
attempts remain, retried after a sleep; the last exception is re-raised once
all attempts are exhausted. -/
def retryCall (max_retries : Nat) (f : Nat → PyOutcome α) : PyOutcome α × Nat :=
  retryFrom f 0 max_retries

/-- A tabular result set (`pandas.DataFrame`) as consumed by the analysis
strategies: a list of column names and a list of rows, each row giving the
(rational-valued) cell in every named column.  Numeric cells — prices,
quantities, customer identifiers, date ordinals — are rationals, which
represents every decimal literal of the source and its tests exactly. -/
structure DataFrame where
  colNames : List String
  rows : List (String → ℚ)

/-- The values of one column, in row order (`data[col]`). -/
def DataFrame.col (df : DataFrame) (c : String) : List ℚ :=
  df.rows.map fun r => r c

/-- Least element of a column (`Series.min`); pandas yields `NaN` on an
empty column, a case no claim touches; `0` stands in for it here. -/
def listMin : List ℚ → ℚ
  | [] => 0
  | a :: t => t.foldl min a

/-- Greatest element of a column (`Series.max`), conventions as `listMin`. -/
def listMax : List ℚ → ℚ
  | [] => 0
  | a :: t => t.foldl max a

/-- `Series.quantile(q)` with the default linear interpolation between order
statistics: with the `n` values sorted ascendingly as `s`, the quantile sits
at position `h = (n-1)·q`, interpolated between `s[⌊h⌋]` and the following
entry.  pandas yields `NaN` on an empty column (no claim touches that case;
`0` stands in for it). -/
def quantileLinear (l : List ℚ) (q : ℚ) : ℚ :=
  let s := l.insertionSort (· ≤ ·)
  match s with
  | [] => 0
  | _ :: _ =>
    let n := s.length
    let h : ℚ := ((n : ℚ) - 1) * q
    let i : Nat := (max ⌊h⌋ 0).toNat
    let lo := s.getD i 0
    let hi := s.getD (min (i + 1) (n - 1)) 0
    lo + (h - (i : ℚ)) * (hi - lo)

/-- The result record of `RevenueAnalysisStrategy.analyze`
(`src/utils/analysis_strategies.py`, lines 43-73).  The field `revenue_std`
(a sample standard deviation, hence a square root) is not representable in
`ℚ` and is not part of any verified property, so it is left out of the
record; every other entry of the Python results dict is present.
`revenue_quartiles` is `none` exactly when the `if len(data) > 0` guard
skips it. -/
structure RevenueResult where
  strategy : String
  total_revenue : ℚ
  average_sale_amount : ℚ
  median_sale_amount : ℚ
  min_sale_amount : ℚ
  max_sale_amount : ℚ
  total_transactions : Nat
  revenue_quartiles : Option (ℚ × ℚ × ℚ)
deriving DecidableEq

/-- `RevenueAnalysisStrategy.analyze` (lines 43-73): require the
`total_price` column, then aggregate it.  `Series.mean` is the column sum
divided by the row count (pandas yields `NaN` on an empty frame, where this
model yields `0`; the verified properties assume a non-empty frame).
The Python error message quotes the column name. -/
def revenueAnalyze (data : DataFrame) : Except PyError RevenueResult :=
  if "total_price" ∉ data.colNames then
    .error (.valueError "Data must contain total_price column for revenue analysis")
  else
    let prices := data.col "total_price"
    .ok
      { strategy := "Revenue Analysis Strategy"
        total_revenue := prices.sum
        average_sale_amount := prices.sum / (data.rows.length : ℚ)
        median_sale_amount := quantileLinear prices (1 / 2)
        min_sale_amount := listMin prices
        max_sale_amount := listMax prices
        total_transactions := data.rows.length
        revenue_quartiles :=
          if 0 < data.rows.length then
            some (quantileLinear prices (1 / 4), quantileLinear prices (1 / 2),
              quantileLinear prices (3 / 4))
          else none }

/-- One row of the intermediate `customer_stats` frame built by
`CustomerBehaviorAnalysisStrategy.analyze` (lines 148-157): per-customer
aggregates of `total_price`, plus the min/max of `sale_date` (the
`first_purchase` / `last_purchase` columns, which exist whenever the
aggregation itself succeeds). -/
structure CustomerStat where
  customer_id : ℚ
  total_spent : ℚ
  purchase_count : Nat
  avg_purchase_amount : ℚ
  first_purchase : ℚ
  last_purchase : ℚ

/-- The `groupby('customer_id')` aggregation of lines 149-152, one
`CustomerStat` per distinct customer identifier.  (pandas sorts the group
keys; the key order is immaterial to every aggregate computed from the
groups, so first-occurrence order is used.) -/
def customerStats (data : DataFrame) : List CustomerStat :=
  ((data.col "customer_id").dedup).map fun cid =>
    let rows := data.rows.filter fun r => r "customer_id" = cid
    let spent := (rows.map fun r => r "total_price").sum
    { customer_id := cid
      total_spent := spent
      purchase_count := rows.length
      avg_purchase_amount := spent / (rows.length : ℚ)
      first_purchase := listMin (rows.map fun r => r "sale_date")
      last_purchase := listMax (rows.map fun r => r "sale_date") }

/-- The results dict of `CustomerBehaviorAnalysisStrategy.analyze`
(lines 159-191).  `customer_segments` is `none` exactly when the
`if len(customer_stats) > 0` guard skips the 2×2 segmentation, whose
buckets appear in source order. -/
structure CustomerBehaviorResult where
  strategy : String
  unique_customers : Nat
  avg_customer_lifetime_value : ℚ
  avg_purchases_per_customer : ℚ
  top_customers_count : Nat
  one_time_customers : Nat
  repeat_customers : Nat
  customer_segments : Option (Nat × Nat × Nat × Nat)

/-- `CustomerBehaviorAnalysisStrategy.analyze` (lines 135-193).  The two
required columns are checked in source order with a `ValueError` naming the
missing column.  The `groupby(...).agg` call of lines 149-152 passes an
aggregation dict that always contains the key `'sale_date'` (mapped to `[]`
when the column is absent); pandas validates every key of such a dict
against the frame's columns before aggregating and raises `KeyError` for a
missing one, so the aggregation fails whenever the frame has no
`sale_date` column. -/
def customerBehaviorAnalyze (data : DataFrame) :
    Except PyError CustomerBehaviorResult :=
  if "customer_id" ∉ data.colNames then
    .error (.valueError "Data must contain customer_id column for customer behavior analysis")
  else if "total_price" ∉ data.colNames then
    .error (.valueError "Data must contain total_price column for customer behavior analysis")
  else if "sale_date" ∉ data.colNames then
    .error (.keyError "Column(s) [sale_date] do not exist")
  else
    let stats := customerStats data
    let spent := stats.map fun st => st.total_spent
    let counts := stats.map fun st => (st.purchase_count : ℚ)
    let high_value := quantileLinear spent (4 / 5)
    let high_freq := quantileLinear counts (4 / 5)
    .ok
      { strategy := "Customer Behavior Analysis Strategy"
        unique_customers := stats.length
        avg_customer_lifetime_value := spent.sum / (stats.length : ℚ)
        avg_purchases_per_customer := counts.sum / (stats.length : ℚ)
        top_customers_count :=
          (stats.filter fun st => high_value < st.total_spent).length
        one_time_customers :=
          (stats.filter fun st => st.purchase_count = 1).length
        repeat_customers :=
          (stats.filter fun st => 1 < st.purchase_count).length
        customer_segments :=
          if 0 < stats.length then
            some
              ((stats.filter fun st =>
                  high_value ≤ st.total_spent ∧ high_freq ≤ (st.purchase_count : ℚ)).length,
                (stats.filter fun st =>
                  high_value ≤ st.total_spent ∧ (st.purchase_count : ℚ) < high_freq).length,
                (stats.filter fun st =>
                  st.total_spent < high_value ∧ high_freq ≤ (st.purchase_count : ℚ)).length,
                (stats.filter fun st =>
                  st.total_spent < high_value ∧ (st.purchase_count : ℚ) < high_freq).length)
          else none }

/-- A Python scalar as stored in an entity field: `None`, an integer, or a
string. -/
inductive PyVal where
  | none
  | int (n : Int)
  | str (s : String)
deriving DecidableEq

/-- A `pandas.DataFrame` as passed to the entity `from_dataframe`
constructors: `row` is the first row as column-name/value pairs (`df[c][0]`),
or `Option.none` when the frame is empty (`df.empty`). -/
structure Frame where
  row : Option (List (String × PyVal))

/-- The `Category` entity (`src/models/category.py`): the `_data` dict set
in `__init__` (lines 12-24). -/
structure Category where
  category_id : PyVal
  category_name : PyVal
deriving DecidableEq

/-- `Category.from_dict` (lines 48-62): `data.get` on each storage-convention
key, defaulting to `None`. -/
def Category.from_dict (data : List (String × PyVal)) : Category :=
  { category_id := (data.lookup "category_id").getD PyVal.none
    category_name := (data.lookup "category_name").getD PyVal.none }

/-- `Category.from_dataframe` (lines 64-85): an empty frame yields the
all-`None` entity; otherwise each field is
`df.get('CategoryID', df.get('category_id', [None]))[0]` — the display
convention `CategoryID` first, falling back to the storage convention
`category_id`, then to `None`. -/
def Category.from_dataframe (df : Frame) : Category :=
  match df.row with
  | Option.none => { category_id := PyVal.none, category_name := PyVal.none }
  | some row =>
    { category_id :=
        (row.lookup "CategoryID").getD ((row.lookup "category_id").getD PyVal.none)
      category_name :=
        (row.lookup "CategoryName").getD ((row.lookup "category_name").getD PyVal.none) }

/-- The factory classes of `src/utils/model_factory.py`: the abstract base
`ModelFactory` (lines 18-45) and the concrete factories (lines 48-123). -/
inductive FactoryClass where
  | modelFactory
  | categoryFactory
  | productFactory
  | saleFactory
deriving DecidableEq

/-- The class-level registry `ModelFactoryRegistry._factories`
(lines 133-141), in source order. -/
def registeredFactories : List (String × FactoryClass) :=
  [("category", .categoryFactory),
    ("product", .productFactory),
    ("sale", .saleFactory),
    ("city", .modelFactory),
    ("country", .modelFactory),
    ("customer", .modelFactory),
    ("employee", .modelFactory)]

/-- Python instantiation `factory_class()` as performed by `get_factory`
(line 158): instantiating the abstract base class raises `TypeError`
(Python's message reads `Can't instantiate abstract class ModelFactory ...`);
a concrete factory class instantiates fine. -/
def instantiateFactory : FactoryClass → Except PyError FactoryClass
  | .modelFactory =>
    .error (.typeError "Cannot instantiate abstract class ModelFactory")
  | fc => .ok fc

/-- `ModelFactoryRegistry.get_factory` (lines 143-158): unknown keys raise
the unsupported-type `ValueError`; registered keys have their factory class
instantiated. -/
def get_factory (model_type : String) : Except PyError FactoryClass :=
  match registeredFactories.lookup model_type with
  | Option.none => .error (.valueError ("Unsupported model type: " ++ model_type))
  | some fc => instantiateFactory fc

/-- `ModelFactoryRegistry.create_model` (lines 160-171): obtain the factory
via `get_factory`, then delegate creation to it (each concrete factory calls
its entity's `from_dict`; the created model is represented by the concrete
factory that made it together with the data handed over, the dispatch and
error behavior being what the registry itself adds). -/
def create_model (model_type : String) (data : List (String × PyVal)) :
    Except PyError (FactoryClass × List (String × PyVal)) :=
  match get_factory model_type with
  | .error e => .error e
  | .ok fc => .ok (fc, data)

/-! ## Helper lemmas -/

theorem joinWith_append_singleton (sep x : String) :
    ∀ ps : List String, ps ≠ [] →
      joinWith sep (ps ++ [x]) = joinWith sep ps ++ sep ++ x
  | [], h => absurd rfl h
  | [_], _ => rfl
  | a :: b :: t, _ => by
    have ih := joinWith_append_singleton sep x (b :: t) (by simp)
    calc joinWith sep ((a :: b :: t) ++ [x])
        = a ++ sep ++ joinWith sep ((b :: t) ++ [x]) := rfl
      _ = a ++ sep ++ (joinWith sep (b :: t) ++ sep ++ x) := by rw [ih]
      _ = (a ++ sep ++ joinWith sep (b :: t)) ++ sep ++ x := by
          simp [String.append_assoc]
      _ = joinWith sep (a :: b :: t) ++ sep ++ x := rfl

/-- `specParts` always starts with the SELECT clause, so it is non-empty. -/
theorem specParts_ne_nil (b : SQLQueryBuilder) : specParts b ≠ [] := by
  simp [specParts]

/-- The builder's `build` renders exactly the clause sequence the
specification describes, whenever the two required parts are present. -/
theorem build_eq_specRender (b : SQLQueryBuilder)
    (hsel : b.select_fields ≠ []) (hfrom : b.from_table ≠ "") :
    b.build = .ok (specRender b) := by
  unfold SQLQueryBuilder.build specRender specParts specLimitClause
  rw [if_neg hsel, if_neg hfrom]
  by_cases hj : b.joins = [] <;>
    by_cases hw : b.where_conditions = [] <;>
    by_cases hg : b.group_by_fields = [] <;>
    by_cases hh : b.having_conditions = [] <;>
    by_cases ho : b.order_by_fields = [] <;>
    cases hlv : b.limit_value with
    | none => simp [hj, hw, hg, hh, ho, List.append_assoc]
    | some n =>
      by_cases hn : n = 0 <;> simp [hj, hw, hg, hh, ho, hn, List.append_assoc]

/-! ## The claims -/

/-- Claim C1: the call chain
`select(['a','b']).from_table('t').where('x>1').order_by('a')` followed by
`build()` returns exactly `"SELECT a, b\nFROM t\nWHERE x>1\nORDER BY a ASC"`;
and in general, for every builder state with its required parts present,
`build()` emits the present clauses in the fixed order SELECT, FROM, JOINs
in insertion order, WHERE as the AND-conjunction of all predicates,
GROUP BY, HAVING, ORDER BY, LIMIT, joined by newlines, omitting absent
clauses (`specRender`). -/
theorem c1_build_renders_fixed_clause_order :
    chainExample.build = .ok "SELECT a, b\nFROM t\nWHERE x>1\nORDER BY a ASC" ∧
    ∀ b : SQLQueryBuilder, b.select_fields ≠ [] → b.from_table ≠ "" →
      b.build = .ok (specRender b) := by
  exact ⟨by decide, build_eq_specRender⟩

/-- Witness for C1 at the concrete call chain of the claim. -/
theorem c1_build_renders_fixed_clause_order_witness :
    chainExample.build = .ok (specRender chainExample) :=
  c1_build_renders_fixed_clause_order.2 chainExample (by decide) (by decide)

/-- Claim C4: `build()` fails with the SELECT error exactly when the select
list is empty; with select fields present, it fails with the FROM error
exactly when the table is unset; and with both present it succeeds — these
are the only failure conditions.  The statement quantifies over every
builder state, hence is independent of the insertion order that produced
the state. -/
theorem c4_build_error_conditions :
    ∀ b : SQLQueryBuilder,
      (b.build = .error "SELECT fields are required" ↔ b.select_fields = []) ∧
      (b.select_fields ≠ [] →
        (b.build = .error "FROM table is required" ↔ b.from_table = "")) ∧
      (b.select_fields ≠ [] → b.from_table ≠ "" → ∃ s, b.build = .ok s) := by
  intro b
  unfold SQLQueryBuilder.build
  by_cases hsel : b.select_fields = [] <;>
    by_cases hfrom : b.from_table = "" <;>
    simp [hsel, hfrom]

/-- Witness for C4 at a builder with one select field and a FROM table. -/
theorem c4_build_error_conditions_witness :
    ((SQLQueryBuilder.empty.select ["x"]).fromTable "s").build =
        .error "SELECT fields are required" ↔
      ((SQLQueryBuilder.empty.select ["x"]).fromTable "s").select_fields = [] :=
  (c4_build_error_conditions ((SQLQueryBuilder.empty.select ["x"]).fromTable "s")).1

/-- Counterexample to claim C8: the claim asserts that for every
non-negative `n`, a builder with `limit(n)` renders a query ending in
`LIMIT n`, the clause being omitted only when no limit was set.  With the
limit set to `0` the rendered query is just `SELECT a\nFROM t`: the LIMIT
clause is dropped even though a limit was set, because `build` tests the
stored value for Python truthiness and `0` is falsy. -/
theorem c8_counterexample_limit_zero_dropped :
    (((SQLQueryBuilder.empty.select ["a"]).fromTable "t").limit 0).build =
        .ok "SELECT a\nFROM t" ∧
      "LIMIT 0".data.isSuffixOf "SELECT a\nFROM t".data = false := by
  decide

/-- Claim C8, amended: for every positive `n`, a builder with select fields
and a FROM table on which `limit(n)` was called renders a query ending in
`LIMIT n`; the LIMIT clause is omitted when no limit was set, and also when
the set limit is `0`, which renders identically to no limit at all. -/
theorem c8_amended_limit_positive_rendered :
    ∀ (b : SQLQueryBuilder) (n : Int),
      b.select_fields ≠ [] → b.from_table ≠ "" →
      (0 < n → ∃ s, (b.limit n).build = .ok (s ++ "LIMIT " ++ toString n)) ∧
      (b.limit 0).build = { b with limit_value := none }.build := by
  intro b n hsel hfrom
  constructor
  · intro hn
    have hn0 : n ≠ 0 := by omega
    have hsel' : (b.limit n).select_fields ≠ [] := hsel
    have hfrom' : (b.limit n).from_table ≠ "" := hfrom
    rw [build_eq_specRender _ hsel' hfrom']
    have hlim : specLimitClause (b.limit n) = ["LIMIT " ++ toString n] := by
      simp [specLimitClause, SQLQueryBuilder.limit, hn0]
    refine ⟨joinWith "\n" (specParts (b.limit n)) ++ "\n", ?_⟩
    rw [specRender, hlim,
      joinWith_append_singleton _ _ _ (specParts_ne_nil (b.limit n)),
      String.append_assoc (joinWith "\n" (specParts (b.limit n)) ++ "\n")
        "LIMIT " (toString n)]
  · unfold SQLQueryBuilder.build SQLQueryBuilder.limit
    simp

/-- Witness for C8 (amended) at `limit(5)` on a one-field builder. -/
theorem c8_amended_limit_positive_rendered_witness :
    ∃ s,
      (((SQLQueryBuilder.empty.select ["a"]).fromTable "t").limit 5).build =
        .ok (s ++ "LIMIT " ++ toString (5 : Int)) :=
  (c8_amended_limit_positive_rendered
      ((SQLQueryBuilder.empty.select ["a"]).fromTable "t") 5
      (by decide) (by decide)).1 (by decide)

/-- The revenue example of the specification: four rows whose
`total_price` values are 100, 200, 150, 300. -/
def revenueExample : DataFrame :=
  { colNames := ["total_price"]
    rows := [fun _ => 100, fun _ => 200, fun _ => 150, fun _ => 300] }

/-- Claim C2: on the rows with prices [100, 200, 150, 300] Revenue Analysis
yields total_revenue = 750, average_sale_amount = 187.5 and
total_transactions = 4; and for every non-empty tabular input with the
`total_price` column, `analyze` succeeds with `total_revenue` the exact sum
of that column, `average_sale_amount` equal to `total_revenue` divided by
the row count, and `total_transactions` the row count. -/
theorem c2_revenue_sum_and_mean :
    (Except.map
        (fun r =>
          (r.total_revenue, r.average_sale_amount, r.total_transactions))
        (revenueAnalyze revenueExample)) = .ok (750, 375 / 2, 4) ∧
    ∀ df : DataFrame, "total_price" ∈ df.colNames → df.rows ≠ [] →
      ∃ r, revenueAnalyze df = .ok r ∧
        r.total_revenue = (df.col "total_price").sum ∧
        r.average_sale_amount = r.total_revenue / (df.rows.length : ℚ) ∧
        r.total_transactions = df.rows.length := by
  constructor
  · simp only [revenueAnalyze, revenueExample, DataFrame.col, Except.map]
    norm_num
  · intro df hcol _hne
    have hcol' : ¬ "total_price" ∉ df.colNames := fun h => h hcol
    unfold revenueAnalyze
    rw [if_neg hcol']
    exact ⟨_, rfl, rfl, rfl, rfl⟩

/-- Witness for C2 at the concrete four-row example. -/
theorem c2_revenue_sum_and_mean_witness :
    ∃ r, revenueAnalyze revenueExample = .ok r ∧
      r.total_revenue = (revenueExample.col "total_price").sum ∧
      r.average_sale_amount = r.total_revenue / (revenueExample.rows.length : ℚ) ∧
      r.total_transactions = revenueExample.rows.length :=
  c2_revenue_sum_and_mean.2 revenueExample (by decide)
    (by simp [revenueExample])

/-- A one-row tabular input carrying the two required columns
`customer_id` and `total_price` but no `sale_date` column. -/
def customerFrameNoDate : DataFrame :=
  { colNames := ["customer_id", "total_price"]
    rows := [fun c => if c = "customer_id" then 1 else 100] }

/-- Claim C5 is a bug in the code: on a frame with the required columns but
without the optional `sale_date` column, `CustomerBehaviorAnalysisStrategy.analyze`
does not succeed with the first/last-purchase sub-metrics omitted — the
aggregation dict passed to `groupby(...).agg` unconditionally contains the
key `'sale_date'`, so pandas raises `KeyError` for it.  The conditional
`['min', 'max'] if 'sale_date' in data.columns else []` in the source shows
the claimed behavior is what was intended.  This theorem evaluates the code
at the failing input. -/
theorem c5_missing_sale_date_raises :
    customerBehaviorAnalyze customerFrameNoDate =
      .error (.keyError "Column(s) [sale_date] do not exist") := by
  rfl

/-- A one-row frame carrying a category id under both naming conventions
with different values: the storage convention maps it to 1, the display
convention to 2. -/
def categoryFrameBothConventions : Frame :=
  { row := some
      [("category_id", .int 1), ("CategoryID", .int 2),
        ("category_name", .str "storage-name"),
        ("CategoryName", .str "display-name")] }

/-- Counterexample to claim C7: on a row carrying the field under both
conventions with different values, `Category.from_dataframe` uses the
display-convention (`CategoryID`) value 2, not the storage-convention
(`category_id`) value 1 the claim promises. -/
theorem c7_counterexample_display_wins :
    (Category.from_dataframe categoryFrameBothConventions).category_id ≠
        PyVal.int 1 ∧
      (Category.from_dataframe categoryFrameBothConventions).category_id =
        PyVal.int 2 := by
  decide

/-- Claim C7, amended: for every row carrying an entity field under both
naming conventions with different values, entity construction uses the
display-convention (capitalized) value, because the display convention is
checked first; the storage-convention value is used only when the display
key is absent. -/
theorem c7_amended_display_convention_first :
    ∀ (row : List (String × PyVal)) (v : PyVal),
      (row.lookup "CategoryID" = some v →
        (Category.from_dataframe { row := some row }).category_id = v) ∧
      (row.lookup "CategoryID" = none → row.lookup "category_id" = some v →
        (Category.from_dataframe { row := some row }).category_id = v) := by
  intro row v
  constructor
  · intro h
    simp [Category.from_dataframe, h]
  · intro h1 h2
    simp [Category.from_dataframe, h1, h2]

/-- Witness for C7 (amended) at the two-convention row. -/
theorem c7_amended_display_convention_first_witness :
    (Category.from_dataframe
        { row := some
            [("category_id", .int 1), ("CategoryID", .int 2),
              ("category_name", .str "storage-name"),
              ("CategoryName", .str "display-name")] }).category_id =
      PyVal.int 2 :=
  (c7_amended_display_convention_first
      [("category_id", .int 1), ("CategoryID", .int 2),
        ("category_name", .str "storage-name"),
        ("CategoryName", .str "display-name")]
      (PyVal.int 2)).1 (by decide)

/-- Claim C10: the keys `city`, `country`, `customer` and `employee` are
registered (so neither `get_factory` nor `create_model` raises the
unsupported-type `ValueError` for them), yet both still fail, because the
registered factory for these keys is the abstract base class, whose
instantiation raises `TypeError`; only `category`, `product` and `sale`
map to concrete factories. -/
theorem c10_abstract_factories_registered_but_fail :
    (registeredFactories.lookup "city" = some .modelFactory ∧
      registeredFactories.lookup "country" = some .modelFactory ∧
      registeredFactories.lookup "customer" = some .modelFactory ∧
      registeredFactories.lookup "employee" = some .modelFactory) ∧
    (get_factory "city" =
        .error (.typeError "Cannot instantiate abstract class ModelFactory") ∧
      get_factory "country" =
        .error (.typeError "Cannot instantiate abstract class ModelFactory") ∧
      get_factory "customer" =
        .error (.typeError "Cannot instantiate abstract class ModelFactory") ∧
      get_factory "employee" =
        .error (.typeError "Cannot instantiate abstract class ModelFactory")) ∧
    (create_model "city" [] =
        .error (.typeError "Cannot instantiate abstract class ModelFactory") ∧
      create_model "country" [] =
        .error (.typeError "Cannot instantiate abstract class ModelFactory") ∧
      create_model "customer" [] =
        .error (.typeError "Cannot instantiate abstract class ModelFactory") ∧
      create_model "employee" [] =
        .error (.typeError "Cannot instantiate abstract class ModelFactory")) ∧
    (get_factory "category" = .ok .categoryFactory ∧
      get_factory "product" = .ok .productFactory ∧
      get_factory "sale" = .ok .saleFactory) := by
  refine ⟨⟨?_, ?_, ?_, ?_⟩, ⟨?_, ?_, ?_, ?_⟩, ⟨?_, ?_, ?_, ?_⟩, ?_, ?_, ?_⟩ <;>
    decide

/-- An operation that raises a precondition failure (a missing-required-column
`ValueError`) on every invocation. -/
def preconditionFailingOp : Nat → PyOutcome Nat := fun _ =>
  .error (.valueError
    "Data must contain customer_id column for customer behavior analysis")

/-- Counterexample to claim C6: the claim promises that the retry wrapper
re-raises a precondition failure immediately without re-invoking the
operation — i.e. with exactly one invocation.  The wrapper of
`retry_decorator` catches the broad `Exception` class, so with the default
`max_retries = 3` an operation raising a missing-required-column
`ValueError` is invoked four times before the failure is re-raised. -/
theorem c6_counterexample_value_error_retried :
    (retryCall 3 preconditionFailingOp).2 = 4 ∧ (4 : Nat) ≠ 1 := by
  decide

/-- All-failing runs of the retry loop: starting at attempt `attempt` with
`remaining` further attempts allowed, every attempt is made and the last
exception is returned. -/
theorem retryFrom_all_errors {α : Type} (f : Nat → PyOutcome α)
    (es : Nat → PyError) (h : ∀ i, f i = .error (es i)) :
    ∀ (remaining attempt : Nat),
      retryFrom f attempt remaining =
        (.error (es (attempt + remaining)), remaining + 1) := by
  intro remaining
  induction remaining with
  | zero => intro attempt; simp [retryFrom, h attempt]
  | succ n ih =>
    intro attempt
    have hstep := ih (attempt + 1)
    simp only [retryFrom, h attempt, hstep]
    have harith : attempt + 1 + n = attempt + (n + 1) := by omega
    rw [harith]

/-- Claim C6, amended: when a wrapped operation raises a precondition
failure (as any other exception) on every invocation, the retry wrapper
does not re-raise it immediately — it re-invokes the operation until the
configured attempts (`max_retries + 1` in total) are exhausted and then
re-raises the last failure.  Precondition failures are retried like every
other exception. -/
theorem c6_amended_all_errors_retried :
    ∀ (α : Type) (max_retries : Nat) (es : Nat → PyError)
      (f : Nat → PyOutcome α),
      (∀ i, f i = .error (es i)) →
      retryCall max_retries f =
        (.error (es max_retries), max_retries + 1) := by
  intro α max_retries es f h
  have := retryFrom_all_errors f es h max_retries 0
  simpa [retryCall] using this

/-- Witness for C6 (amended): the precondition-failing operation under the
default `max_retries = 3` is invoked four times and its error re-raised. -/
theorem c6_amended_all_errors_retried_witness :
    retryCall 3 preconditionFailingOp =
      (.error (.valueError
        "Data must contain customer_id column for customer behavior analysis"),
        4) :=
  c6_amended_all_errors_retried Nat 3
    (fun _ => .valueError
      "Data must contain customer_id column for customer behavior analysis")
    preconditionFailingOp (fun _ => rfl)

/-! ## Cache well-formedness -/

/-- Invariant tying `_cache` and `_access_order` together: the dict keys are
distinct (dict keys always are), the access-order list is duplicate-free,
and both hold exactly the same keys.  `QueryCache.__init__` establishes it
and every cache operation preserves it. -/
def CacheWF {α : Type} (c : QueryCache α) : Prop :=
  c.keys.Nodup ∧ c.access_order.Nodup ∧ ∀ k, k ∈ c.keys ↔ k ∈ c.access_order

theorem CacheWF.init (α : Type) (cap : Nat) : CacheWF (QueryCache.init α cap) :=
  ⟨List.nodup_nil, List.nodup_nil, fun _ => Iff.rfl⟩

theorem CacheWF.length_eq {α : Type} {c : QueryCache α} (h : CacheWF c) :
    c.cache.length = c.access_order.length := by
  have hperm := (List.perm_ext_iff_of_nodup h.1 h.2.1).mpr h.2.2
  have := hperm.length_eq
  simpa [QueryCache.keys] using this

theorem lookup_none_iff {α : Type} {l : List (String × α)} {k : String} :
    l.lookup k = none ↔ k ∉ l.map Prod.fst := by
  induction l with
  | nil => simp [List.lookup]
  | cons hd tl ih =>
    rcases hd with ⟨a, v⟩
    by_cases h : k = a
    · subst h
      simp [List.lookup]
    · have hb : (k == a) = false := beq_eq_false_iff_ne.mpr h
      simp [List.lookup, hb, h, ih]

theorem length_filter_ne_key {α : Type} (l : List (String × α)) (a : String)
    (hnd : (l.map Prod.fst).Nodup) (ha : a ∈ l.map Prod.fst) :
    (l.filter fun p => p.1 != a).length + 1 = l.length := by
  induction l with
  | nil => simp at ha
  | cons hd tl ih =>
    simp only [List.map_cons, List.nodup_cons] at hnd
    rcases List.mem_cons.mp ha with h | h
    · subst h
      have htl : ∀ p ∈ tl, (p.1 != hd.1) = true := by
        intro p hp
        refine bne_iff_ne.mpr fun hpa => hnd.1 ?_
        exact hpa ▸ List.mem_map_of_mem _ hp
      have hhd : (hd.1 != hd.1) = false := by simp
      have h1 : List.filter (fun p => p.1 != hd.1) (hd :: tl) =
          List.filter (fun p => p.1 != hd.1) tl := by
        simp [List.filter_cons, hhd]
      have h2 : List.filter (fun p => p.1 != hd.1) tl = tl :=
        List.filter_eq_self.mpr htl
      rw [h1, h2]
      simp
    · by_cases hha : hd.1 = a
      · exact absurd (hha ▸ h) hnd.1
      · have hhd : (hd.1 != a) = true := bne_iff_ne.mpr hha
        have htail := ih hnd.2 h
        simp only [List.filter_cons, hhd, if_true, List.length_cons]
        omega

theorem mem_map_fst_filter_ne {α : Type} (l : List (String × α)) (a x : String) :
    (x ∈ (l.filter fun p => p.1 != a).map Prod.fst) ↔
      x ∈ l.map Prod.fst ∧ x ≠ a := by
  simp only [List.mem_map, List.mem_filter, bne_iff_ne]
  constructor
  · rintro ⟨p, ⟨hp, hpa⟩, rfl⟩
    exact ⟨⟨p, hp, rfl⟩, hpa⟩
  · rintro ⟨⟨p, hp, rfl⟩, hxa⟩
    exact ⟨p, ⟨hp, hxa⟩, rfl⟩

theorem mem_keys_of_lookup_some {α : Type} {l : List (String × α)} {k : String}
    {v : α} (h : l.lookup k = some v) : k ∈ l.map Prod.fst := by
  by_contra hk
  rw [lookup_none_iff.mpr hk] at h
  simp at h

theorem map_fst_update {α : Type} (l : List (String × α)) (k : String) (v : α) :
    ((l.map fun p => if p.1 == k then (k, v) else p).map Prod.fst) =
      l.map Prod.fst := by
  rw [List.map_map]
  refine List.map_congr_left ?_
  intro p _
  by_cases h : (p.1 == k) = true
  · simp [Function.comp, h, eq_of_beq h]
  · simp [Function.comp, h]

theorem mem_erase_iff_of_nodup {l : List String} {a b : String}
    (hnd : l.Nodup) : a ∈ l.erase b ↔ a ∈ l ∧ a ≠ b := by
  induction l with
  | nil => simp
  | cons x xs ih =>
    rcases List.nodup_cons.mp hnd with ⟨hx, hxs⟩
    by_cases h : x = b
    · subst h
      rw [List.erase_cons_head]
      constructor
      · intro ha
        exact ⟨List.mem_cons_of_mem _ ha, fun he => hx (he ▸ ha)⟩
      · rintro ⟨ha, hne⟩
        rcases List.mem_cons.mp ha with h' | h'
        · exact absurd h' hne
        · exact h'
    · have hb : (x == b) = false := beq_eq_false_iff_ne.mpr h
      rw [List.erase_cons, if_neg (by simp [hb])]
      rw [List.mem_cons, ih hxs, List.mem_cons]
      constructor
      · rintro (rfl | ⟨ha, hne⟩)
        · exact ⟨Or.inl rfl, h⟩
        · exact ⟨Or.inr ha, hne⟩
      · rintro ⟨rfl | ha, hne⟩
        · exact Or.inl rfl
        · exact Or.inr ⟨ha, hne⟩

theorem nodup_erase_append_singleton {l : List String} {k : String}
    (hnd : l.Nodup) : (l.erase k ++ [k]).Nodup := by
  rw [List.nodup_append]
  refine ⟨(List.erase_sublist k l).nodup hnd, List.nodup_singleton k, ?_⟩
  intro a ha hb
  rcases List.mem_singleton.mp hb with rfl
  exact ((mem_erase_iff_of_nodup hnd).mp ha).2 rfl

/-- `get` never changes the dict or the capacity, and keeps the invariant. -/
theorem CacheWF.get_preserved {α : Type} {c : QueryCache α} (hwf : CacheWF c)
    (k : String) :
    CacheWF (c.get k).2 ∧ (c.get k).2.cache = c.cache ∧
      (c.get k).2.max_size = c.max_size := by
  unfold QueryCache.get
  cases h : c.cache.lookup k with
  | none => exact ⟨hwf, rfl, rfl⟩
  | some v =>
    have hk : k ∈ c.keys := mem_keys_of_lookup_some h
    have hko : k ∈ c.access_order := (hwf.2.2 k).mp hk
    refine ⟨⟨hwf.1, nodup_erase_append_singleton hwf.2.1, ?_⟩, rfl, rfl⟩
    intro k'
    show k' ∈ c.keys ↔ k' ∈ c.access_order.erase k ++ [k]
    rw [List.mem_append, mem_erase_iff_of_nodup hwf.2.1, List.mem_singleton,
      hwf.2.2 k']
    constructor
    · intro hk'
      by_cases he : k' = k
      · exact Or.inr he
      · exact Or.inl ⟨hk', he⟩
    · rintro (⟨hk', _⟩ | rfl)
      · exact hk'
      · exact hko

/-- `set` on a present key: in-place update plus recency touch. -/
theorem set_update_eq {α : Type} (c : QueryCache α) (k : String) (v : Option α)
    (h : (c.cache.lookup k).isSome = true) :
    c.set k v =
      { c with
        cache := c.cache.map fun p => if p.1 == k then (k, v) else p
        access_order := c.access_order.erase k ++ [k] } := by
  simp [QueryCache.set, h]

/-- `set` on a new key in a full cache: evict the least recently used key,
then insert at the most-recently-used end. -/
theorem set_evict_eq {α : Type} (c : QueryCache α) (k : String) (v : Option α)
    (oldest : String) (rest : List String)
    (h : c.cache.lookup k = none) (hfull : c.max_size ≤ c.cache.length)
    (hao : c.access_order = oldest :: rest) :
    c.set k v =
      { c with
        cache := (c.cache.filter fun p => p.1 != oldest) ++ [(k, v)]
        access_order := rest ++ [k] } := by
  simp [QueryCache.set, h, hfull, hao]

/-- `set` on a new key with room to spare: plain insertion at the end. -/
theorem set_grow_eq {α : Type} (c : QueryCache α) (k : String) (v : Option α)
    (h : c.cache.lookup k = none) (hroom : ¬ c.max_size ≤ c.cache.length) :
    c.set k v =
      { c with
        cache := c.cache ++ [(k, v)]
        access_order := c.access_order ++ [k] } := by
  simp [QueryCache.set, h, hroom]

/-- Key set of the cache after an eviction-branch `set`. -/
theorem keys_after_evict {α : Type} (c : QueryCache α) (k : String)
    (v : Option α) (oldest : String) (rest : List String)
    (h : c.cache.lookup k = none) (hfull : c.max_size ≤ c.cache.length)
    (hao : c.access_order = oldest :: rest) :
    ∀ x, x ∈ (c.set k v).keys ↔ (x ∈ c.keys ∧ x ≠ oldest) ∨ x = k := by
  intro x
  rw [set_evict_eq c k v oldest rest h hfull hao]
  show x ∈ ((c.cache.filter fun p => p.1 != oldest) ++ [(k, v)]).map Prod.fst ↔ _
  rw [List.map_append, List.mem_append, mem_map_fst_filter_ne]
  simp [QueryCache.keys]

/-- `set` keeps the invariant, the capacity, and the capacity bound. -/
theorem CacheWF.set_preserved {α : Type} {c : QueryCache α} (hwf : CacheWF c)
    (hcap : 1 ≤ c.max_size) (hlen : c.cache.length ≤ c.max_size)
    (k : String) (v : Option α) :
    CacheWF (c.set k v) ∧ (c.set k v).max_size = c.max_size ∧
      (c.set k v).cache.length ≤ c.max_size := by
  by_cases hk : (c.cache.lookup k).isSome = true
  · -- update branch: keys unchanged, order touched
    obtain ⟨w, hw⟩ := Option.isSome_iff_exists.mp hk
    have hkmem : k ∈ c.keys := mem_keys_of_lookup_some hw
    have hko : k ∈ c.access_order := (hwf.2.2 k).mp hkmem
    rw [set_update_eq c k v hk]
    refine ⟨⟨?_, nodup_erase_append_singleton hwf.2.1, ?_⟩, rfl, ?_⟩
    · show ((c.cache.map fun p => if p.1 == k then (k, v) else p).map
          Prod.fst).Nodup
      rw [map_fst_update]
      exact hwf.1
    · intro k'
      show k' ∈ (c.cache.map fun p => if p.1 == k then (k, v) else p).map
          Prod.fst ↔ k' ∈ c.access_order.erase k ++ [k]
      rw [map_fst_update, List.mem_append, mem_erase_iff_of_nodup hwf.2.1,
        List.mem_singleton]
      rw [show (k' ∈ c.cache.map Prod.fst) = (k' ∈ c.keys) from rfl, hwf.2.2 k']
      constructor
      · intro hk'
        by_cases he : k' = k
        · exact Or.inr he
        · exact Or.inl ⟨hk', he⟩
      · rintro (⟨hk', _⟩ | rfl)
        · exact hk'
        · exact hko
    · show (c.cache.map fun p => if p.1 == k then (k, v) else p).length ≤
        c.max_size
      rw [List.length_map]
      exact hlen
  · have hnone : c.cache.lookup k = none := by
      cases h : c.cache.lookup k with
      | none => rfl
      | some w => rw [h] at hk; simp at hk
    have hknotmem : k ∉ c.keys := lookup_none_iff.mp hnone
    have hknotord : k ∉ c.access_order := fun h => hknotmem ((hwf.2.2 k).mpr h)
    by_cases hfull : c.max_size ≤ c.cache.length
    · -- eviction branch
      have hlen_eq := hwf.length_eq
      have hpos : 1 ≤ c.access_order.length := by omega
      obtain ⟨oldest, rest, hao⟩ : ∃ o r, c.access_order = o :: r := by
        cases hh : c.access_order with
        | nil => rw [hh] at hpos; simp at hpos
        | cons o r => exact ⟨o, r, rfl⟩
      have holdord : oldest ∈ c.access_order := by
        rw [hao]; exact List.mem_cons_self _ _
      have holdkeys : oldest ∈ c.keys := (hwf.2.2 oldest).mpr holdord
      have hfl := length_filter_ne_key c.cache oldest hwf.1 holdkeys
      have hrest_nodup : rest.Nodup := by
        have := hwf.2.1
        rw [hao, List.nodup_cons] at this
        exact this.2
      have hold_notin_rest : oldest ∉ rest := by
        have := hwf.2.1
        rw [hao, List.nodup_cons] at this
        exact this.1
      have hk_notin_rest : k ∉ rest := fun h =>
        hknotord (by rw [hao]; exact List.mem_cons_of_mem _ h)
      have hkeys := keys_after_evict c k v oldest rest hnone hfull hao
      rw [set_evict_eq c k v oldest rest hnone hfull hao] at hkeys ⊢
      refine ⟨⟨?_, ?_, ?_⟩, rfl, ?_⟩
      · -- keys nodup: sublist of keys, plus the fresh k
        show (((c.cache.filter fun p => p.1 != oldest) ++ [(k, v)]).map
            Prod.fst).Nodup
        rw [List.map_append, List.nodup_append]
        refine ⟨((List.filter_sublist _).map Prod.fst).nodup hwf.1,
          List.nodup_singleton k, ?_⟩
        intro a ha hb
        rcases List.mem_singleton.mp hb with rfl
        exact hknotmem ((mem_map_fst_filter_ne c.cache oldest a).mp ha).1
      · show (rest ++ [k]).Nodup
        rw [List.nodup_append]
        exact ⟨hrest_nodup, List.nodup_singleton k, fun a ha hb => by
          rcases List.mem_singleton.mp hb with rfl
          exact hk_notin_rest ha⟩
      · intro k'
        have h1 := hkeys k'
        simp only [QueryCache.keys] at h1 ⊢
        rw [h1]
        show (k' ∈ c.keys ∧ k' ≠ oldest) ∨ k' = k ↔ k' ∈ rest ++ [k]
        rw [List.mem_append, List.mem_singleton]
        constructor
        · rintro (⟨hk', hne⟩ | rfl)
          · left
            have : k' ∈ c.access_order := (hwf.2.2 k').mp hk'
            rw [hao] at this
            rcases List.mem_cons.mp this with rfl | h'
            · exact absurd rfl hne
            · exact h'
          · exact Or.inr rfl
        · rintro (hk' | rfl)
          · have hmem : k' ∈ c.access_order := by
              rw [hao]
              exact List.mem_cons_of_mem _ hk'
            refine Or.inl ⟨(hwf.2.2 k').mpr hmem, ?_⟩
            intro he
            exact hold_notin_rest (he ▸ hk')
          · exact Or.inr rfl
      · show ((c.cache.filter fun p => p.1 != oldest) ++ [(k, v)]).length ≤
          c.max_size
        rw [List.length_append]
        simp only [List.length_singleton]
        omega
    · -- growth branch
      rw [set_grow_eq c k v hnone hfull]
      refine ⟨⟨?_, ?_, ?_⟩, rfl, ?_⟩
      · show ((c.cache ++ [(k, v)]).map Prod.fst).Nodup
        rw [List.map_append, List.nodup_append]
        exact ⟨hwf.1, List.nodup_singleton k, fun a ha hb => by
          rcases List.mem_singleton.mp hb with rfl
          exact hknotmem ha⟩
      · show (c.access_order ++ [k]).Nodup
        rw [List.nodup_append]
        exact ⟨hwf.2.1, List.nodup_singleton k, fun a ha hb => by
          rcases List.mem_singleton.mp hb with rfl
          exact hknotord ha⟩
      · intro k'
        have h2 := hwf.2.2 k'
        simp only [QueryCache.keys] at h2 ⊢
        simp only [List.map_append, List.mem_append, List.map_cons,
          List.map_nil, List.mem_singleton, List.mem_cons, List.not_mem_nil,
          or_false]
        rw [h2]
      · show (c.cache ++ [(k, v)]).length ≤ c.max_size
        rw [List.length_append]
        simp only [List.length_singleton]
        omega

/-- A wrapper call that finds a non-`None` cached value is a hit. -/
theorem cachingCall_hit_eq {α : Type} (f : String → Option α)
    (c : QueryCache α) (k : String) (v : α) (h : (c.get k).1 = some v) :
    cachingCall f c k = ⟨some v, (c.get k).2, false⟩ := by
  simp [cachingCall, h]

/-- A wrapper call that finds no (non-`None`) cached value invokes the
operation and stores its result. -/
theorem cachingCall_miss_eq {α : Type} (f : String → Option α)
    (c : QueryCache α) (k : String) (h : (c.get k).1 = none) :
    cachingCall f c k = ⟨f k, (c.get k).2.set k (f k), true⟩ := by
  simp [cachingCall, h]

/-- One wrapper call keeps the invariant, the capacity, and the bound. -/
theorem cachingCall_preserved {α : Type} (f : String → Option α)
    {c : QueryCache α} (hwf : CacheWF c) (hcap : 1 ≤ c.max_size)
    (hlen : c.cache.length ≤ c.max_size) (k : String) :
    CacheWF (cachingCall f c k).cache ∧
      (cachingCall f c k).cache.max_size = c.max_size ∧
      (cachingCall f c k).cache.cache.length ≤ c.max_size := by
  obtain ⟨hwf2, hc2, hm2⟩ := hwf.get_preserved k
  cases hg : (c.get k).1 with
  | some v =>
    rw [cachingCall_hit_eq f c k v hg]
    exact ⟨hwf2, hm2, by rw [hc2]; exact hlen⟩
  | none =>
    rw [cachingCall_miss_eq f c k hg]
    have hcap' : 1 ≤ (c.get k).2.max_size := by rw [hm2]; exact hcap
    have hlen' : (c.get k).2.cache.length ≤ (c.get k).2.max_size := by
      rw [hc2, hm2]; exact hlen
    obtain ⟨h1, h2, h3⟩ := hwf2.set_preserved hcap' hlen' k (f k)
    exact ⟨h1, h2.trans hm2, by rw [← hm2]; exact h3⟩

/-- Any sequence of wrapper calls starting from a fresh cache keeps the
number of stored entries within the capacity. -/
theorem foldl_cachingCall_bound {α : Type} (f : String → Option α)
    (cap : Nat) (hcap : 1 ≤ cap) (ks : List String) :
    (ks.foldl (fun c k => (cachingCall f c k).cache)
        (QueryCache.init α cap)).cache.length ≤ cap := by
  suffices h : ∀ (ks : List String) (c : QueryCache α), CacheWF c →
      c.max_size = cap → c.cache.length ≤ cap →
      CacheWF (ks.foldl (fun c k => (cachingCall f c k).cache) c) ∧
      (ks.foldl (fun c k => (cachingCall f c k).cache) c).max_size = cap ∧
      (ks.foldl (fun c k => (cachingCall f c k).cache) c).cache.length ≤ cap by
    exact (h ks (QueryCache.init α cap) (CacheWF.init α cap) rfl
      (by simp [QueryCache.init])).2.2
  intro ks
  induction ks with
  | nil => intro c hwf hm hlen; exact ⟨hwf, hm, hlen⟩
  | cons k ks ih =>
    intro c hwf hm hlen
    have hcap' : 1 ≤ c.max_size := by omega
    have hlen' : c.cache.length ≤ c.max_size := by omega
    obtain ⟨h1, h2, h3⟩ := cachingCall_preserved f hwf hcap' hlen' k
    exact ih (cachingCall f c k).cache h1 (by omega) (by omega)

/-- The first wrapper call on a fresh cache of positive capacity. -/
theorem cachingCall_first_from_empty {α : Type} (f : String → Option α)
    (cap : Nat) (k : String) (hcap : 1 ≤ cap) :
    cachingCall f (QueryCache.init α cap) k =
      ⟨f k, ⟨[(k, f k)], cap, [k]⟩, true⟩ := by
  have h0 : ¬ (cap ≤ 0) := by omega
  simp [cachingCall, QueryCache.get, QueryCache.init, QueryCache.set,
    List.lookup, h0]

/-- A repeated identical call against the one-entry cache produced by the
first call: a hit when the stored result is not `None`. -/
theorem cachingCall_second_hit {α : Type} (f : String → Option α)
    (cap : Nat) (k : String) (v : α) (hv : f k = some v) :
    cachingCall f ⟨[(k, f k)], cap, [k]⟩ k =
      ⟨f k, ⟨[(k, f k)], cap, [k]⟩, false⟩ := by
  simp [cachingCall, QueryCache.get, List.lookup, hv]

/-- A call with a different key misses the one-entry cache. -/
theorem cachingCall_other_key_invokes {α : Type} (f : String → Option α)
    (cap : Nat) (k k' : String) (w : Option α) (hne : k' ≠ k) :
    (cachingCall f ⟨[(k, w)], cap, [k]⟩ k').invoked = true := by
  have hb : (k' == k) = false := beq_eq_false_iff_ne.mpr hne
  simp [cachingCall, QueryCache.get, List.lookup, hb]

/-- Counterexample to claim C3: the claim asserts that for every pure
wrapped operation two calls with identical arguments invoke the underlying
operation exactly once.  For a pure operation returning `None` the wrapper
re-invokes on the identical second call (the write-through of `None` is
never served as a hit), so the operation is invoked twice. -/
theorem c3_counterexample_none_result_invoked_twice :
    (cachingCall (fun _ => (none : Option Nat)) (QueryCache.init Nat 100)
        "query").invoked = true ∧
      (cachingCall (fun _ => (none : Option Nat))
          (cachingCall (fun _ => (none : Option Nat))
            (QueryCache.init Nat 100) "query").cache "query").invoked =
        true := by
  decide

/-- Claim C3, amended: for every pure wrapped operation *whose result is
not `None`*, two calls through the caching wrapper with identical arguments
invoke the underlying operation exactly once (the second call returns the
cached value); a call with a different argument invokes it again; inserting
a (capacity+1)-th distinct cache key evicts exactly the least-recently-used
entry; and a fresh cache of positive capacity never holds more than its
capacity (default 100) of entries across any sequence of wrapper calls.
The wrapper's cache key is a deterministic function of the operation name
and its positional and keyword arguments, identified here with the argument
itself. -/
theorem c3_amended_cache_behavior :
    (∀ (α : Type) (f : String → Option α) (cap : Nat) (k : String) (v : α),
      1 ≤ cap → f k = some v →
      (cachingCall f (QueryCache.init α cap) k).invoked = true ∧
      (cachingCall f (cachingCall f (QueryCache.init α cap) k).cache
          k).invoked = false ∧
      (cachingCall f (cachingCall f (QueryCache.init α cap) k).cache
          k).result = f k) ∧
    (∀ (α : Type) (f : String → Option α) (cap : Nat) (k k' : String) (v : α),
      1 ≤ cap → f k = some v → k' ≠ k →
      (cachingCall f
          (cachingCall f (cachingCall f (QueryCache.init α cap) k).cache
            k).cache k').invoked = true) ∧
    (∀ (α : Type) (c : QueryCache α) (k : String) (v : Option α)
        (oldest : String) (rest : List String),
      CacheWF c → c.cache.length = c.max_size → c.cache.lookup k = none →
      c.access_order = oldest :: rest →
      (c.set k v).cache.length = c.max_size ∧
      oldest ∉ (c.set k v).keys ∧ k ∈ (c.set k v).keys ∧
      ∀ x ∈ c.keys, x ≠ oldest → x ∈ (c.set k v).keys) ∧
    (∀ (α : Type) (f : String → Option α) (cap : Nat) (ks : List String),
      1 ≤ cap →
      (ks.foldl (fun c k => (cachingCall f c k).cache)
          (QueryCache.init α cap)).cache.length ≤ cap) := by
  refine ⟨?_, ?_, ?_, ?_⟩
  · intro α f cap k v hcap hv
    rw [cachingCall_first_from_empty f cap k hcap]
    rw [show (⟨f k, ⟨[(k, f k)], cap, [k]⟩, true⟩ : CallResult α).cache =
      ⟨[(k, f k)], cap, [k]⟩ from rfl]
    rw [cachingCall_second_hit f cap k v hv]
    exact ⟨rfl, rfl, rfl⟩
  · intro α f cap k k' v hcap hv hne
    rw [cachingCall_first_from_empty f cap k hcap]
    rw [show (⟨f k, ⟨[(k, f k)], cap, [k]⟩, true⟩ : CallResult α).cache =
      ⟨[(k, f k)], cap, [k]⟩ from rfl]
    rw [cachingCall_second_hit f cap k v hv]
    exact cachingCall_other_key_invokes f cap k k' (f k) hne
  · intro α c k v oldest rest hwf hfull hnone hao
    have hkeys := keys_after_evict c k v oldest rest hnone
      (le_of_eq hfull.symm) hao
    have hknotmem : k ∉ c.keys := lookup_none_iff.mp hnone
    have holdkeys : oldest ∈ c.keys := (hwf.2.2 oldest).mpr
      (by rw [hao]; exact List.mem_cons_self _ _)
    have hfl := length_filter_ne_key c.cache oldest hwf.1 holdkeys
    refine ⟨?_, ?_, ?_, ?_⟩
    · rw [set_evict_eq c k v oldest rest hnone (le_of_eq hfull.symm) hao]
      show ((c.cache.filter fun p => p.1 != oldest) ++ [(k, v)]).length =
        c.max_size
      rw [List.length_append]
      simp only [List.length_singleton]
      omega
    · intro hmem
      rcases (hkeys oldest).mp hmem with ⟨_, hne⟩ | heq
      · exact hne rfl
      · exact hknotmem (heq ▸ holdkeys)
    · exact (hkeys k).mpr (Or.inr rfl)
    · intro x hx hne
      exact (hkeys x).mpr (Or.inl ⟨hx, hne⟩)
  · intro α f cap ks hcap
    exact foldl_cachingCall_bound f cap hcap ks

/-- Witness for C3 (amended) at concrete operations and caches: a hit on
the second identical call, an eviction of the least-recently-used key
`"a"`, and the capacity bound along a concrete key sequence. -/
theorem c3_amended_cache_behavior_witness :
    (cachingCall (fun _ => some 5) (QueryCache.init Nat 2) "a").invoked =
        true ∧
      ("a" ∉ ((QueryCache.mk [("a", some 1), ("b", some 2)] 2
          ["a", "b"]).set "c" (some 3)).keys ∧
        ((QueryCache.mk [("a", some 1), ("b", some 2)] 2
            ["a", "b"]).set "c" (some 3)).cache.length = 2) ∧
      (["x", "y", "x", "z"].foldl
          (fun c k => (cachingCall (fun _ => some 0) c k).cache)
          (QueryCache.init Nat 2)).cache.length ≤ 2 := by
  have hevict := c3_amended_cache_behavior.2.2.1 Nat
    (QueryCache.mk [("a", some 1), ("b", some 2)] 2 ["a", "b"]) "c" (some 3)
    "a" ["b"] ⟨by decide, by decide, fun x => Iff.rfl⟩ rfl rfl rfl
  refine ⟨?_, ⟨hevict.2.1, hevict.1⟩, ?_⟩
  · exact (c3_amended_cache_behavior.1 Nat (fun _ => some 5) 2 "a" 5
      (by decide) rfl).1
  · exact c3_amended_cache_behavior.2.2.2 Nat (fun _ => some 0) 2
      ["x", "y", "x", "z"] (by decide)

/-- Claim C9: a wrapped operation returning `None` is invoked on every
call: any cache state holding `None` (or nothing) under the key misses;
the first call writes `None` into the cache; and the identical second call
invokes the operation again, the stored `None` never being served as a
hit. -/
theorem c9_none_never_served :
    ∀ (α : Type) (f : String → Option α) (cap : Nat) (k : String),
      f k = none → 1 ≤ cap →
      (∀ c : QueryCache α,
        c.cache.lookup k = some none ∨ c.cache.lookup k = none →
        (cachingCall f c k).invoked = true) ∧
      (cachingCall f (QueryCache.init α cap) k).invoked = true ∧
      (cachingCall f (QueryCache.init α cap) k).cache.cache.lookup k =
        some none ∧
      (cachingCall f (cachingCall f (QueryCache.init α cap) k).cache
          k).invoked = true := by
  intro α f cap k hf hcap
  have hfirst := cachingCall_first_from_empty f cap k hcap
  refine ⟨?_, ?_, ?_, ?_⟩
  · intro c hc
    rcases hc with hc | hc <;> simp [cachingCall, QueryCache.get, hc]
  · rw [hfirst]
  · rw [hfirst]
    show List.lookup k [(k, f k)] = some none
    simp [List.lookup, hf]
  · rw [hfirst]
    show (cachingCall f ⟨[(k, f k)], cap, [k]⟩ k).invoked = true
    simp [cachingCall, QueryCache.get, List.lookup, hf]

/-- Witness for C9 at a concrete `None`-returning operation. -/
theorem c9_none_never_served_witness :
    (cachingCall (fun _ => (none : Option Nat)) (QueryCache.init Nat 3)
        "q").invoked = true ∧
      (cachingCall (fun _ => (none : Option Nat)) (QueryCache.init Nat 3)
          "q").cache.cache.lookup "q" = some none :=
  ⟨(c9_none_never_served Nat (fun _ => none) 3 "q" rfl (by decide)).2.1,
    (c9_none_never_served Nat (fun _ => none) 3 "q" rfl (by decide)).2.2.1⟩
